import Mathlib

/-!
Verification development for the BODIK-API MCP server.

The repository has two source files:
  * `BODIK-API-mcp.py` — a stdio MCP server wrapping the BODIK open-data API.
    The file contains two pasted variants of the server; the operative
    definitions (the later ones, which shadow the earlier in Python's
    top-to-bottom execution order) are `_http_get`/`_http_post` (lines
    229-252), `_extract_features` (255-259), `_to_records` (261-266) and
    `_records_to_csv` (270-290).
  * `api/index.py` — an SSE-transport MCP server whose `call_tool`
    dispatcher (lines 119-222) implements `get_api_list`,
    `get_municipality_code`, `get_all_organizations`, `get_dataset_config`,
    `get_organization` and `search_dataset`, catching every exception at the
    dispatcher boundary and converting it to an `Error: ...` text content.

We shallowly embed these functions over an inductive JSON value type.
Python dynamic failures (AttributeError, TypeError, KeyError, ...) are made
explicit with `Except String`; the HTTP layer is a parameter
(`Upstream : String → List (String × Json) → Except String Json`) standing
for "issue the request, raise on transport/HTTP error, decode the body".
Python floats never undergo arithmetic in this code — they are only ever
rendered back to text — so a float value is modelled by its shortest-repr
decimal string (`Json.float "33.5"` for the literal `33.5`).
-/

/-- JSON values as produced by Python's `json.loads`.  `num` is a JSON
integer; `float` is a non-integer JSON number, modelled by its Python
`repr` string (this code never computes with floats, it only prints them).
Objects keep key order (Python dicts preserve insertion order) and, as the
output of `json.loads`, have distinct keys. -/
inductive Json where
  | null : Json
  | bool (b : Bool) : Json
  | num (n : Int) : Json
  | float (r : String) : Json
  | str (s : String) : Json
  | arr (xs : List Json) : Json
  | obj (kvs : List (String × Json)) : Json
deriving Repr

mutual
/-- Decidable equality on `Json` (spelled out because `deriving` does not
handle the nested `List` occurrences on this toolchain). -/
def jsonDecEq : (a b : Json) → Decidable (a = b)
  | .null, .null => isTrue rfl
  | .bool x, .bool y =>
      if h : x = y then isTrue (by rw [h]) else isFalse (fun e => h (Json.bool.inj e))
  | .num x, .num y =>
      if h : x = y then isTrue (by rw [h]) else isFalse (fun e => h (Json.num.inj e))
  | .float x, .float y =>
      if h : x = y then isTrue (by rw [h]) else isFalse (fun e => h (Json.float.inj e))
  | .str x, .str y =>
      if h : x = y then isTrue (by rw [h]) else isFalse (fun e => h (Json.str.inj e))
  | .arr xs, .arr ys =>
      match jsonDecEqList xs ys with
      | isTrue h => isTrue (by rw [h])
      | isFalse h => isFalse (fun e => h (Json.arr.inj e))
  | .obj xs, .obj ys =>
      match jsonDecEqObj xs ys with
      | isTrue h => isTrue (by rw [h])
      | isFalse h => isFalse (fun e => h (Json.obj.inj e))
  | .null, .bool _ => isFalse (fun h => Json.noConfusion h)
  | .null, .num _ => isFalse (fun h => Json.noConfusion h)
  | .null, .float _ => isFalse (fun h => Json.noConfusion h)
  | .null, .str _ => isFalse (fun h => Json.noConfusion h)
  | .null, .arr _ => isFalse (fun h => Json.noConfusion h)
  | .null, .obj _ => isFalse (fun h => Json.noConfusion h)
  | .bool _, .null => isFalse (fun h => Json.noConfusion h)
  | .bool _, .num _ => isFalse (fun h => Json.noConfusion h)
  | .bool _, .float _ => isFalse (fun h => Json.noConfusion h)
  | .bool _, .str _ => isFalse (fun h => Json.noConfusion h)
  | .bool _, .arr _ => isFalse (fun h => Json.noConfusion h)
  | .bool _, .obj _ => isFalse (fun h => Json.noConfusion h)
  | .num _, .null => isFalse (fun h => Json.noConfusion h)
  | .num _, .bool _ => isFalse (fun h => Json.noConfusion h)
  | .num _, .float _ => isFalse (fun h => Json.noConfusion h)
  | .num _, .str _ => isFalse (fun h => Json.noConfusion h)
  | .num _, .arr _ => isFalse (fun h => Json.noConfusion h)
  | .num _, .obj _ => isFalse (fun h => Json.noConfusion h)
  | .float _, .null => isFalse (fun h => Json.noConfusion h)
  | .float _, .bool _ => isFalse (fun h => Json.noConfusion h)
  | .float _, .num _ => isFalse (fun h => Json.noConfusion h)
  | .float _, .str _ => isFalse (fun h => Json.noConfusion h)
  | .float _, .arr _ => isFalse (fun h => Json.noConfusion h)
  | .float _, .obj _ => isFalse (fun h => Json.noConfusion h)
  | .str _, .null => isFalse (fun h => Json.noConfusion h)
  | .str _, .bool _ => isFalse (fun h => Json.noConfusion h)
  | .str _, .num _ => isFalse (fun h => Json.noConfusion h)
  | .str _, .float _ => isFalse (fun h => Json.noConfusion h)
  | .str _, .arr _ => isFalse (fun h => Json.noConfusion h)
  | .str _, .obj _ => isFalse (fun h => Json.noConfusion h)
  | .arr _, .null => isFalse (fun h => Json.noConfusion h)
  | .arr _, .bool _ => isFalse (fun h => Json.noConfusion h)
  | .arr _, .num _ => isFalse (fun h => Json.noConfusion h)
  | .arr _, .float _ => isFalse (fun h => Json.noConfusion h)
  | .arr _, .str _ => isFalse (fun h => Json.noConfusion h)
  | .arr _, .obj _ => isFalse (fun h => Json.noConfusion h)
  | .obj _, .null => isFalse (fun h => Json.noConfusion h)
  | .obj _, .bool _ => isFalse (fun h => Json.noConfusion h)
  | .obj _, .num _ => isFalse (fun h => Json.noConfusion h)
  | .obj _, .float _ => isFalse (fun h => Json.noConfusion h)
  | .obj _, .str _ => isFalse (fun h => Json.noConfusion h)
  | .obj _, .arr _ => isFalse (fun h => Json.noConfusion h)

def jsonDecEqList : (a b : List Json) → Decidable (a = b)
  | [], [] => isTrue rfl
  | [], _ :: _ => isFalse (fun h => List.noConfusion h)
  | _ :: _, [] => isFalse (fun h => List.noConfusion h)
  | x :: xs, y :: ys =>
      match jsonDecEq x y with
      | isFalse h => isFalse (fun e => h (List.head_eq_of_cons_eq e))
      | isTrue h =>
        match jsonDecEqList xs ys with
        | isTrue h' => isTrue (by rw [h, h'])
        | isFalse h' => isFalse (fun e => h' (List.tail_eq_of_cons_eq e))

def jsonDecEqObj : (a b : List (String × Json)) → Decidable (a = b)
  | [], [] => isTrue rfl
  | [], _ :: _ => isFalse (fun h => List.noConfusion h)
  | _ :: _, [] => isFalse (fun h => List.noConfusion h)
  | (k, v) :: xs, (k', v') :: ys =>
      if hk : k = k' then
        match jsonDecEq v v' with
        | isFalse h =>
            isFalse (fun e => h (congrArg Prod.snd (List.head_eq_of_cons_eq e)))
        | isTrue h =>
          match jsonDecEqObj xs ys with
          | isTrue h' => isTrue (by rw [hk, h, h'])
          | isFalse h' => isFalse (fun e => h' (List.tail_eq_of_cons_eq e))
      else
        isFalse (fun e => hk (congrArg Prod.fst (List.head_eq_of_cons_eq e)))
end

instance : DecidableEq Json := jsonDecEq

instance {ε α : Type} [DecidableEq ε] [DecidableEq α] : DecidableEq (Except ε α) :=
  fun a b =>
    match a, b with
    | .ok x, .ok y =>
        if h : x = y then isTrue (by rw [h]) else isFalse (fun e => h (Except.ok.inj e))
    | .error x, .error y =>
        if h : x = y then isTrue (by rw [h]) else isFalse (fun e => h (Except.error.inj e))
    | .ok _, .error _ => isFalse (fun h => Except.noConfusion h)
    | .error _, .ok _ => isFalse (fun h => Except.noConfusion h)

/-- First-match association-list lookup: Python `d[k]` / `d.get(k)` on a
dict rendered as its (unique-keyed) insertion-ordered item list. -/
def alookup (kvs : List (String × Json)) (k : String) : Option Json :=
  match kvs with
  | [] => none
  | (k', v) :: rest => if k' = k then some v else alookup rest k

/-- Python's `type(x).__name__` for the JSON-valued fragment. -/
def pyTypeName : Json → String
  | .null => "NoneType"
  | .bool _ => "bool"
  | .num _ => "int"
  | .float _ => "float"
  | .str _ => "str"
  | .arr _ => "list"
  | .obj _ => "dict"

/-- Join a list of strings with a separator (Python `sep.join(xs)`). -/
def joinSep (sep : String) : List String → String
  | [] => ""
  | [x] => x
  | x :: xs => x ++ sep ++ joinSep sep xs

mutual
/-- Python `str(x)` on a JSON value (used by f-strings and `csv` field
conversion).  Containers render via `repr`; we model the repr of the
string fragment without Python's escape refinement, which the claims never
exercise. -/
def pyStr : Json → String
  | .null => "None"
  | .bool b => cond b "True" "False"
  | .num n => toString n
  | .float r => r
  | .str s => s
  | .arr xs => "[" ++ joinSep ", " (pyReprList xs) ++ "]"
  | .obj kvs => "\x7b" ++ joinSep ", " (pyReprObj kvs) ++ "\x7d"

/-- Python `repr(x)` on a JSON value (strings get quotes). -/
def pyRepr : Json → String
  | .str s => "\x27" ++ s ++ "\x27"
  | .null => "None"
  | .bool b => cond b "True" "False"
  | .num n => toString n
  | .float r => r
  | .arr xs => "[" ++ joinSep ", " (pyReprList xs) ++ "]"
  | .obj kvs => "\x7b" ++ joinSep ", " (pyReprObj kvs) ++ "\x7d"

def pyReprList : List Json → List String
  | [] => []
  | x :: xs => pyRepr x :: pyReprList xs

def pyReprObj : List (String × Json) → List String
  | [] => []
  | (k, v) :: kvs => ("\x27" ++ k ++ "\x27: " ++ pyRepr v) :: pyReprObj kvs
end

/-- Hex digit for `\u00XX` escapes. -/
def hexDigit (n : Nat) : Char :=
  if n < 10 then Char.ofNat (48 + n) else Char.ofNat (87 + n)

/-- JSON string escaping as done by Python's `json.dumps`
(`ensure_ascii=False`: only the mandatory escapes). -/
def jsonEscapeChar (c : Char) : String :=
  if c = '"' then "\\\""
  else if c = '\\' then "\\\\"
  else if c = '\n' then "\\n"
  else if c = '\r' then "\\r"
  else if c = '\t' then "\\t"
  else if c.toNat = 8 then "\\b"
  else if c.toNat = 12 then "\\f"
  else if c.toNat < 32 then
    "\\u00" ++ String.mk [hexDigit (c.toNat / 16), hexDigit (c.toNat % 16)]
  else String.mk [c]

def jsonEscape (s : String) : String :=
  String.join (s.data.map jsonEscapeChar)

/-- Indentation prefix `' ' * (2*n)` at nesting level `n` for
`json.dumps(..., indent=2)`. -/
def jsonPad (n : Nat) : String :=
  String.mk (List.replicate (2 * n) ' ')

mutual
/-- Recursive worker for `json.dumps(v, indent=2, ensure_ascii=False)` at nesting level `lvl`. -/
def jsonDumpsAux (lvl : Nat) : Json → String
  | .null => "null"
  | .bool b => cond b "true" "false"
  | .num n => toString n
  | .float r => r
  | .str s => "\"" ++ jsonEscape s ++ "\""
  | .arr [] => "[]"
  | .arr (x :: xs) =>
      "[\n" ++ jsonDumpsItems (lvl + 1) (x :: xs) ++ "\n" ++ jsonPad lvl ++ "]"
  | .obj [] => "\x7b\x7d"
  | .obj (kv :: kvs) =>
      "\x7b\n" ++ jsonDumpsPairs (lvl + 1) (kv :: kvs) ++ "\n" ++ jsonPad lvl ++ "\x7d"

def jsonDumpsItems (lvl : Nat) : List Json → String
  | [] => ""
  | [x] => jsonPad lvl ++ jsonDumpsAux lvl x
  | x :: y :: xs => jsonPad lvl ++ jsonDumpsAux lvl x ++ ",\n" ++ jsonDumpsItems lvl (y :: xs)

def jsonDumpsPairs (lvl : Nat) : List (String × Json) → String
  | [] => ""
  | [(k, v)] => jsonPad lvl ++ "\"" ++ jsonEscape k ++ "\": " ++ jsonDumpsAux lvl v
  | (k, v) :: kv :: kvs =>
      jsonPad lvl ++ "\"" ++ jsonEscape k ++ "\": " ++ jsonDumpsAux lvl v ++ ",\n" ++
        jsonDumpsPairs lvl (kv :: kvs)
end

/-- Embedding of `json.dumps(v, indent=2, ensure_ascii=False)` as used throughout
`api/index.py`. -/
def json_dumps (v : Json) : String := jsonDumpsAux 0 v

/-! ## Embedding of `BODIK-API-mcp.py` helpers (operative definitions) -/

/-- Python `d.get(k, default)` on a JSON value: succeeds on a dict, raises
`AttributeError` on anything else. -/
def pyGetD (d : Json) (k : String) (default : Json) : Except String Json :=
  match d with
  | .obj kvs => .ok ((alookup kvs k).getD default)
  | _ => .error ("\x27" ++ pyTypeName d ++ "\x27 object has no attribute \x27get\x27")

/-- Python `o.get(k)` (default `None`). -/
def pyGet (o : Json) (k : String) : Except String Json :=
  pyGetD o k Json.null

/-- Embedding of `_extract_features` (BODIK-API-mcp.py lines 255-259):
`try: return data.get("resultsets", {}).get("features", []) except: return []`. -/
def extract_features (data : Json) : Json :=
  match (do
      let r ← pyGetD data "resultsets" (Json.obj [])
      pyGetD r "features" (Json.arr [])) with
  | .ok v => v
  | .error _ => Json.arr []

/-- Embedding of `_to_records` (lines 261-266): `[f.get("properties", {}) for f in features]`.
Raises when a feature is not a dict, exactly as `f.get` would. -/
def to_records (features : List Json) : Except String (List Json) :=
  features.mapM (fun f => pyGetD f "properties" (Json.obj []))

/-- Keys of one record in insertion order (Python `r.keys()`). -/
def recordKeys (r : List (String × Json)) : List String :=
  r.map Prod.fst

/-- Inner loop of the header computation in `_records_to_csv` (lines
276-284): walk one record's keys, appending unseen ones, and break out as
soon as `max_cols ≤ headers.length` (the check runs after every key). -/
def csvHeadersInner (maxCols : Nat) : List String → List String → List String →
    List String × List String
  | [], seen, hdrs => (seen, hdrs)
  | k :: ks, seen, hdrs =>
    let seen' := if k ∈ seen then seen else k :: seen
    let hdrs' := if k ∈ seen then hdrs else hdrs ++ [k]
    if maxCols ≤ hdrs'.length then (seen', hdrs')
    else csvHeadersInner maxCols ks seen' hdrs'

/-- Outer loop over the records; breaks when the bound is reached. -/
def csvHeadersOuter (maxCols : Nat) : List (List (String × Json)) →
    List String → List String → List String
  | [], _, hdrs => hdrs
  | r :: rs, seen, hdrs =>
    let p := csvHeadersInner maxCols (recordKeys r) seen hdrs
    if maxCols ≤ p.2.length then p.2
    else csvHeadersOuter maxCols rs p.1 p.2

/-- The bounded header union chosen by `_records_to_csv`. -/
def csvHeaders (maxCols : Nat) (records : List (List (String × Json))) : List String :=
  csvHeadersOuter maxCols records [] []

/-- The value a `csv` writer puts in a cell: `''` for `None`, `str(v)`
otherwise. -/
def csvField : Json → String
  | .null => ""
  | v => pyStr v

/-- Excel-dialect minimal quoting: quote a field containing the delimiter,
the quote character or a line-break character; double embedded quotes. -/
def csvNeedsQuote (s : String) : Bool :=
  s.data.any (fun c => c = ',' || c = '"' || c = '\r' || c = '\n')

def csvQuote (s : String) : String :=
  if csvNeedsQuote s then "\"" ++ s.replace "\"" "\"\"" ++ "\"" else s

/-- One CSV line (fields joined by `,`, terminated by `\r\n`). -/
def csvLine (fields : List String) : String :=
  joinSep "," (fields.map csvQuote) ++ "\r\n"

/-- One data row: `DictWriter` writes `r.get(h, restval='')` per header
column; extra keys are ignored (`extrasaction="ignore"`). -/
def csvRow (headers : List String) (r : List (String × Json)) : String :=
  csvLine (headers.map (fun h =>
    match alookup r h with
    | some v => csvField v
    | none => ""))

/-- Embedding of `_records_to_csv` (lines 270-290), over records that are dicts (the
only shape on which the Python runs without raising). -/
def records_to_csv (records : List (List (String × Json))) (maxCols : Nat := 60) : String :=
  if records.isEmpty then ""
  else
    let headers := csvHeaders maxCols records
    csvLine headers ++ String.join (records.map (csvRow headers))

/-- First-occurrence key union over all records, with no column bound:
the header order the specification describes. -/
def addNewKey (acc : List String) (k : String) : List String :=
  if k ∈ acc then acc else acc ++ [k]

def addNewKeys (acc : List String) (ks : List String) : List String :=
  ks.foldl addNewKey acc

def unionKeys (records : List (List (String × Json))) : List String :=
  records.foldl (fun acc r => addNewKeys acc (recordKeys r)) []

/-- The `search_get_csv` pipeline (lines 339-346) applied to a decoded
upstream payload: extract features, flatten to `properties` records, then
serialize.  Non-dict records make the Python raise inside the `csv`
machinery; we surface that before serializing (failure-equivalent: every
non-dict record is reached either by the header loop or by `writerow`). -/
def pyIterate : Json → Except String (List Json)
  | .arr xs => .ok xs
  | .str s => .ok (s.data.map (fun c => Json.str (String.mk [c])))
  | .obj kvs => .ok (kvs.map (fun kv => Json.str kv.1))
  | v => .error ("\x27" ++ pyTypeName v ++ "\x27 object is not iterable")

def search_get_csv_text (data : Json) : Except String String := do
  let feats ← pyIterate (extract_features data)
  let recs ← to_records feats
  let dicts ← recs.mapM (fun r =>
    match r with
    | .obj kvs => .ok kvs
    | _ => .error ("\x27" ++ pyTypeName r ++ "\x27 object has no attribute \x27keys\x27"))
  pure (records_to_csv dicts)

/-! ## Embedding of `_http_get` / `_http_post` -/

/-- The base URL (env override defaults to the public endpoint). -/
def BASE_URL : String := "https://wapi.bodik.jp"

/-- Python slice `text[:n]` — truncation by code points (kept list-based so it
kernel-reduces). -/
def strTake (s : String) (n : Nat) : String :=
  String.mk (s.data.take n)

/-- Embedding of `_http_get` (lines 229-239) applied to a received response:
`status`/`text` are the response status and body, `parse` is `json.loads`
returning `none` on `JSONDecodeError`. -/
def http_get_result (url : String) (status : Nat) (text : String)
    (parse : String → Option Json) : Except String Json :=
  if status ≠ 200 then
    .error ("GET " ++ url ++ " -> " ++ toString status ++ ": " ++ strTake text 500)
  else
    match parse text with
    | some j => .ok j
    | none => .ok (Json.obj [("raw", Json.str text)])

/-- The superseded first variant (lines 51-61), identical except that the
body excerpt is truncated to 200 characters. -/
def http_get_result_v1 (url : String) (status : Nat) (text : String)
    (parse : String → Option Json) : Except String Json :=
  if status ≠ 200 then
    .error ("GET " ++ url ++ " -> " ++ toString status ++ ": " ++ strTake text 200)
  else
    match parse text with
    | some j => .ok j
    | none => .ok (Json.obj [("raw", Json.str text)])

/-- Embedding of `_http_post` (lines 241-252). -/
def http_post_result (url : String) (status : Nat) (text : String)
    (parse : String → Option Json) : Except String Json :=
  if status ≠ 200 then
    .error ("POST " ++ url ++ " -> " ++ toString status ++ ": " ++ strTake text 500)
  else
    match parse text with
    | some j => .ok j
    | none => .ok (Json.obj [("raw", Json.str text)])

/-! ## Embedding of `api/index.py` (`call_tool` dispatcher) -/

/-- Whether `needle` occurs as a contiguous sublist of `hay` starting at the head. -/
def listLeads : List Char → List Char → Bool
  | [], _ => true
  | _ :: _, [] => false
  | n :: ns, h :: hs => n = h && listLeads ns hs

/-- Python's substring test `needle in hay` on strings. -/
def listHasSub (needle : List Char) (hay : List Char) : Bool :=
  listLeads needle hay ||
    match hay with
    | [] => false
    | _ :: hs => listHasSub needle hs

def strHasSub (needle hay : String) : Bool :=
  listHasSub needle.data hay.data

/-- Python's `x in container` on JSON values: substring test on strings,
element membership on lists (structural equality standing in for `==`),
key membership on dicts, `TypeError` on non-containers and on unhashable
dict probes. -/
def pyIn (x : Json) (container : Json) : Except String Bool :=
  match container with
  | .str s =>
      match x with
      | .str q => .ok (strHasSub q s)
      | _ => .error ("\x27in <string>\x27 requires string as left operand, not " ++ pyTypeName x)
  | .arr xs => .ok (xs.contains x)
  | .obj kvs =>
      match x with
      | .str q => .ok (kvs.any (fun kv => kv.1 = q))
      | .arr _ => .error "unhashable type: \x27list\x27"
      | .obj _ => .error "unhashable type: \x27dict\x27"
      | _ => .ok false
  | .null => .error "argument of type \x27NoneType\x27 is not iterable"
  | .bool _ => .error "argument of type \x27bool\x27 is not iterable"
  | .num _ => .error "argument of type \x27int\x27 is not iterable"
  | .float _ => .error "argument of type \x27float\x27 is not iterable"

/-- Python `len(x)` on a JSON value. -/
def pyLen : Json → Except String Nat
  | .arr xs => .ok xs.length
  | .str s => .ok s.length
  | .obj kvs => .ok kvs.length
  | .null => .error "object of type \x27NoneType\x27 has no len()"
  | .bool _ => .error "object of type \x27bool\x27 has no len()"
  | .num _ => .error "object of type \x27int\x27 has no len()"
  | .float _ => .error "object of type \x27float\x27 has no len()"

/-- Python `d.pop(k)` on a (unique-keyed) dict: the value plus the dict
without that key, or `none` (KeyError) when absent. -/
def popKey (kvs : List (String × Json)) (k : String) :
    Option (Json × List (String × Json)) :=
  match alookup kvs k with
  | none => none
  | some v => some (v, kvs.filter (fun kv => kv.1 ≠ k))

/-- One `TextContent(type="text", text=..., isError=...)` block.
`isError` defaults to false in the success returns. -/
structure TextContent where
  text : String
  isError : Bool
deriving DecidableEq, Repr

/-- The HTTP layer as seen by a branch: given URL and query params, either
the decoded JSON body, or the message of the exception that
`client.get`/`raise_for_status`/`.json()` raised. -/
def Upstream : Type := String → List (String × Json) → Except String Json

def LIST_API_URL : String := BASE_URL ++ "/api/list"

/-- The `get_api_list` branch (index.py lines 123-131), producing the text of
its single content block. -/
def api_list_text (up : Upstream) : Except String String := do
  let data ← up LIST_API_URL []
  let lines ← (match data with
    | Json.arr xs =>
        xs.mapM (fun i => do
          let a ← pyGet i "apiname"
          let d ← pyGet i "description"
          pure ("- " ++ pyStr a ++ ": " ++ pyStr d))
    | _ => pure [])
  pure ("利用可能なAPI一覧:\n\n" ++ joinSep "\n" lines ++
    "\n\n--- 次のステップ ---\n1. apinameを選び \x27get_dataset_config\x27 で取得項目を確認\n2. \x27get_municipality_code\x27 で自治体コードを確認（任意）\n3. \x27search_dataset\x27 で fields を指定して検索")

/-- Sequential filtering with a fallible predicate: the list comprehension
`[o for o in all_orgs if q in o.get("organ_name")]`. -/
def filterEM (p : Json → Except String Bool) : List Json → Except String (List Json)
  | [] => .ok []
  | x :: xs => do
    let c ← p x
    let rest ← filterEM p xs
    pure (if c then x :: rest else rest)

/-- The comprehension condition `q in o.get("organ_name")`. -/
def orgPred (q : Json) (o : Json) : Except String Bool := do
  let v ← pyGet o "organ_name"
  pyIn q v

/-- The `get_municipality_code` branch (lines 133-140). -/
def municipality_text (args : List (String × Json)) (up : Upstream) :
    Except String String := do
  let q := (alookup args "q").getD Json.null
  let all_orgs ← up (BASE_URL ++ "/organization") []
  let orgs ← pyIterate all_orgs
  let matched ← filterEM (orgPred q) orgs
  pure (json_dumps (Json.arr matched))

/-- The `get_all_organizations` branch (lines 142-145). -/
def all_organizations_text (up : Upstream) : Except String String := do
  let data ← up (BASE_URL ++ "/organization") []
  pure (json_dumps data)

/-- The `get_dataset_config` branch (lines 147-159): fetch `/config/<apiname>`
and strip the bulky `fields` and `mapping` keys from a dict payload. -/
def dataset_config_text (args : List (String × Json)) (up : Upstream) :
    Except String String := do
  let apiname := (alookup args "apiname").getD Json.null
  let data ← up (BASE_URL ++ "/config/" ++ pyStr apiname) []
  let data2 := match data with
    | Json.obj kvs => Json.obj (kvs.filter (fun kv => kv.1 ≠ "fields" ∧ kv.1 ≠ "mapping"))
    | _ => data
  pure (json_dumps data2)

/-- The `get_organization` branch (lines 161-165). -/
def organization_text (args : List (String × Json)) (up : Upstream) :
    Except String String := do
  let apiname := (alookup args "apiname").getD Json.null
  let data ← up (BASE_URL ++ "/" ++ pyStr apiname ++ "/organization") []
  pure (json_dumps data)

/-- The inline default for `fields` in `search_dataset` (line 172). -/
def defaultFieldsJson : Json :=
  Json.arr [Json.str "name", Json.str "address", Json.str "telephoneNumber",
    Json.str "lat", Json.str "lon"]

/-- The hint appended when the caller did not supply `fields` (line 213). -/
def hintText : String :=
  "\n\n(ヒント: \x27get_dataset_config\x27 で項目名を確認し、\x27fields\x27 を指定すると詳細な情報を取得できます)"

/-- Result-list normalization (lines 182-192): lists pass through with
their length; dicts take the `result` key (wrapping themselves as a
single item when no `result` key and no `apiname` marker key), and
`totalCount` comes from `data.get("totalCount", len(results))`.  Python
evaluates the `.get` default argument `len(results)` **eagerly**, so an
unsized `results` value raises `TypeError` even when an explicit
`totalCount` field is present. -/
def normalize_result_list (data : Json) : Except String (Json × Json) :=
  match data with
  | Json.arr l => .ok (Json.arr l, Json.num l.length)
  | Json.obj kvs =>
    let results := match alookup kvs "result" with
      | some v => v
      | none => if (alookup kvs "apiname").isSome then Json.arr [] else Json.arr [Json.obj kvs]
    (match pyLen results with
     | .error e => .error e
     | .ok n => .ok (results, (alookup kvs "totalCount").getD (Json.num n)))
  | _ => .ok (Json.arr [], Json.num 0)

/-- Python dict insertion: replacing in place if the key is present
(`{f: item.get(f) for f in ...}` keeps the first position of a key). -/
def dictInsert (kvs : List (String × Json)) (k : String) (v : Json) :
    List (String × Json) :=
  match kvs with
  | [] => [(k, v)]
  | (k', v') :: rest => if k' = k then (k, v) :: rest else (k', v') :: dictInsert rest k v

/-- One step of the dict comprehension `{f: item.get(f) for f in fields if
f in item}`: evaluate `f in item`, and on success fetch `item.get(f)`.
For a dict item the membership test is true only for string fields, so
insertion always has a string key; for non-dict items a true membership
test reaches `item.get` and raises `AttributeError`. -/
def projStep (item : Json) (acc : List (String × Json)) (f : Json) :
    Except String (List (String × Json)) := do
  let c ← pyIn f item
  if c then
    match item, f with
    | .obj kvs, .str s => pure (dictInsert acc s ((alookup kvs s).getD Json.null))
    | .obj _, _ => pure acc
    | _, _ => .error ("\x27" ++ pyTypeName item ++ "\x27 object has no attribute \x27get\x27")
  else
    pure acc

def projFold (item : Json) (acc : List (String × Json)) :
    List Json → Except String (List (String × Json))
  | [] => .ok acc
  | f :: fs => do
    let acc' ← projStep item acc f
    projFold item acc' fs

/-- The per-item projection plus empty-projection passthrough
(lines 196-204). -/
def project_one (item : Json) (selected : Json) : Except String Json := do
  let fs ← pyIterate selected
  let proj ← projFold item [] fs
  pure (if proj.isEmpty then item else Json.obj proj)

/-- The whole filtering loop over `results`. -/
def project_fields (items : List Json) (selected : Json) :
    Except String (List Json) :=
  items.mapM (fun it => project_one it selected)

/-- The `params` dict sent upstream (lines 174-177): default `maxResults`
to 10 when absent, then drop `None`-valued entries. -/
def search_params (args2 : List (String × Json)) : List (String × Json) :=
  (if (alookup args2 "maxResults").isNone then args2 ++ [("maxResults", Json.num 10)]
   else args2).filter (fun kv => kv.2 ≠ Json.null)

/-- Argument processing of `search_dataset` (lines 168-178): pop
`apiname` (KeyError when absent), record whether `fields` was supplied,
pop it with the inline default, and build the upstream request. -/
def search_request (args : List (String × Json)) :
    Except String (String × List (String × Json) × Json × Bool) :=
  match popKey args "apiname" with
  | none => .error "\x27apiname\x27"
  | some (apiname, args1) =>
    let fields_provided := (alookup args1 "fields").isSome
    let sel_rest := match popKey args1 "fields" with
      | some (v, rest) => (v, rest)
      | none => (defaultFieldsJson, args1)
    .ok (BASE_URL ++ "/" ++ pyStr apiname, search_params sel_rest.2, sel_rest.1,
      fields_provided)

/-- The `search_dataset` branch (lines 167-216). -/
def search_dataset_text (args : List (String × Json)) (up : Upstream) :
    Except String String := do
  let req ← search_request args
  let data ← up req.1 req.2.1
  let nr ← normalize_result_list data
  let items ← pyIterate nr.1
  let filtered ← project_fields items req.2.2.1
  pure (json_dumps (Json.obj [("totalCount", nr.2), ("result", Json.arr filtered)]) ++
    (if req.2.2.2 then "" else hintText))

/-- Wrap a branch's text as its `[TextContent(type="text", text=...)]`
return value. -/
def wrapText (e : Except String String) : Except String (List TextContent) :=
  e.map (fun t => [TextContent.mk t false])

/-- The names `call_tool` recognises. -/
def toolNames : List String :=
  ["get_api_list", "get_municipality_code", "get_all_organizations",
   "get_dataset_config", "get_organization", "search_dataset"]

/-- The body of the `try:` block in `call_tool` (lines 122-219): run the
branch for `name`, or raise `ValueError(f"Unknown tool: {name}")`. -/
def dispatch (name : String) (args : List (String × Json)) (up : Upstream) :
    Except String (List TextContent) :=
  if name = "get_api_list" then wrapText (api_list_text up)
  else if name = "get_municipality_code" then wrapText (municipality_text args up)
  else if name = "get_all_organizations" then wrapText (all_organizations_text up)
  else if name = "get_dataset_config" then wrapText (dataset_config_text args up)
  else if name = "get_organization" then wrapText (organization_text args up)
  else if name = "search_dataset" then wrapText (search_dataset_text args up)
  else .error ("Unknown tool: " ++ name)

/-- Embedding of `call_tool` (lines 119-222): every exception from the branch body is
caught and converted to a single error content block
`TextContent(text="Error: " + str(e), isError=True)`. -/
def call_tool (name : String) (args : List (String × Json)) (up : Upstream) :
    List TextContent :=
  match dispatch name args up with
  | .ok r => r
  | .error e => [TextContent.mk ("Error: " ++ e) true]

/-! ## Specification-side definitions and concrete fixtures -/

/-- The predicate the specification ascribes to `get_municipality_code`:
keep an organization entry iff its `organ_name` field contains `q` as a
(case-sensitive) substring. -/
def orgMatches (q : String) : Json → Bool
  | .obj kvs =>
    match alookup kvs "organ_name" with
    | some (.str s) => strHasSub q s
    | _ => false
  | _ => false

/-- The per-item field projection as a pure fold (the value of the dict
comprehension on a dict item and string field list). -/
def projPureAux (it : List (String × Json)) (acc : List (String × Json)) :
    List String → List (String × Json)
  | [] => acc
  | f :: fs =>
    projPureAux it
      (match alookup it f with
       | some v => dictInsert acc f v
       | none => acc) fs

def projPure (it : List (String × Json)) (fields : List String) :
    List (String × Json) :=
  projPureAux it [] fields

/-- The stub upstream payload of the specification's CSV test. -/
def stubPayload : Json :=
  Json.obj [("resultsets", Json.obj [("features",
    Json.arr [Json.obj [("properties",
      Json.obj [("name", Json.str "Station A"), ("lat", Json.float "33.5")])]])])]

/-- A list of 61 records with 61 distinct keys: more distinct keys than the default
60-column bound. -/
def recs61 : List (List (String × Json)) :=
  (List.range 61).map (fun i => [(toString i, Json.null)])

/-- Fixture: the specification's two-organization stub. -/
def wOrg1 : Json := Json.obj [("organ_name", Json.str "福岡市")]

def wOrg2 : Json := Json.obj [("organ_name", Json.str "北九州市")]

def upOrgs : Upstream := fun _ _ => .ok (Json.arr [wOrg1, wOrg2])

/-- Fixture: an organization list whose second entry lacks `organ_name`. -/
def upBadOrgs : Upstream := fun _ _ =>
  .ok (Json.arr [wOrg1, Json.obj [("name", Json.str "x")]])

/-- Fixture: an upstream that always raises. -/
def upErr : Upstream := fun _ _ => .error "boom"

/-- Fixture: a search result payload with a `result` key. -/
def upSearch : Upstream := fun _ _ =>
  .ok (Json.obj [("result", Json.arr [Json.obj [("name", Json.str "A")]])])

/-! ## Helper lemmas -/

theorem listLeads_refl (l : List Char) : listLeads l l = true := by
  induction l with
  | nil => rfl
  | cons c cs ih => simp [listLeads, ih]

theorem listHasSub_append (n : List Char) : ∀ x : List Char, listHasSub n (x ++ n) = true := by
  intro x
  induction x with
  | nil =>
    rw [List.nil_append]
    cases n with
    | nil => rfl
    | cons c cs => simp [listHasSub, listLeads_refl]
  | cons c cs ih =>
    rw [List.cons_append, listHasSub, ih, Bool.or_true]

theorem strHasSub_append (a n : String) : strHasSub n (a ++ n) = true := by
  have h : (a ++ n).data = a.data ++ n.data := String.data_append a n
  rw [strHasSub, h, listHasSub_append]

/-! ## Claim C6 — upstream client error classification -/

/-- C6 (counterexample): the claim says a 2xx status whose body is not
valid JSON yields `{raw: <body>}`; but the code raises on every status
other than exactly 200, so a 204 response with a non-JSON body fails
instead of producing `{raw: ...}`. -/
theorem claim_C6_counterexample :
    (200 ≤ 204 ∧ 204 < 300 ∧ 204 ≠ 200) ∧
    http_get_result "https://wapi.bodik.jp/aed" 204 "hello" (fun _ => none) =
      .error "GET https://wapi.bodik.jp/aed -> 204: hello" ∧
    http_get_result "https://wapi.bodik.jp/aed" 204 "hello" (fun _ => none) ≠
      .ok (Json.obj [("raw", Json.str "hello")]) := by
  decide

/-- C6 (amended): `_http_get`/`_http_post` fail with an error carrying the
status code and the truncated body excerpt (500 characters; 200 in the
superseded first variant) on any status other than exactly 200 — not on
"any non-2xx status" — and on a 200 status whose body is not valid JSON
they return `{raw: <body text>}` instead of failing. -/
theorem claim_C6_amended :
    (∀ url status text parse, status ≠ 200 →
       http_get_result url status text parse =
         .error ("GET " ++ url ++ " -> " ++ toString status ++ ": " ++ strTake text 500)) ∧
    (∀ url text parse, parse text = none →
       http_get_result url 200 text parse = .ok (Json.obj [("raw", Json.str text)])) ∧
    (∀ url text parse j, parse text = some j →
       http_get_result url 200 text parse = .ok j) ∧
    (∀ url status text parse, status ≠ 200 →
       http_get_result_v1 url status text parse =
         .error ("GET " ++ url ++ " -> " ++ toString status ++ ": " ++ strTake text 200)) ∧
    (∀ url status text parse, status ≠ 200 →
       http_post_result url status text parse =
         .error ("POST " ++ url ++ " -> " ++ toString status ++ ": " ++ strTake text 500)) ∧
    (∀ url text parse, parse text = none →
       http_post_result url 200 text parse = .ok (Json.obj [("raw", Json.str text)])) := by
  refine ⟨?_, ?_, ?_, ?_, ?_, ?_⟩
  · intro url status text parse h
    simp [http_get_result, h]
  · intro url text parse h
    simp [http_get_result, h]
  · intro url text parse j h
    simp [http_get_result, h]
  · intro url status text parse h
    simp [http_get_result_v1, h]
  · intro url status text parse h
    simp [http_post_result, h]
  · intro url text parse h
    simp [http_post_result, h]

/-- C6 (witness): the amended theorem at a concrete 500 response and a
concrete non-JSON 200 response. -/
theorem claim_C6_witness :
    http_get_result "https://wapi.bodik.jp/aed" 500 "oops" (fun _ => none) =
      .error "GET https://wapi.bodik.jp/aed -> 500: oops" ∧
    http_get_result "https://wapi.bodik.jp/aed" 200 "oops" (fun _ => none) =
      .ok (Json.obj [("raw", Json.str "oops")]) :=
  ⟨(claim_C6_amended.1 "https://wapi.bodik.jp/aed" 500 "oops" (fun _ => none)
      (by decide)).trans (by decide),
   claim_C6_amended.2.1 "https://wapi.bodik.jp/aed" "oops" (fun _ => none) rfl⟩

/-! ## Claim C3 — `_extract_features` -/

/-- C3 (counterexample): the claim says a wrong-shaped
`resultsets.features` segment yields the empty list, but
`{"resultsets": {"features": 42}}` makes `_extract_features` return `42`
(the stored value, which is not a list). -/
theorem claim_C3_counterexample :
    extract_features (Json.obj [("resultsets", Json.obj [("features", Json.num 42)])]) =
      Json.num 42 ∧
    Json.num 42 ≠ Json.arr [] := by
  decide

/-- C3 (amended): `_extract_features` returns `[]` whenever the payload or
its `resultsets` value is not a mapping (the `.get` chain raises and the
`except` returns `[]`), returns `[]` when either key is absent (the
defaults), and otherwise returns exactly the value stored at
`resultsets.features` — whatever its shape, list or not. It never raises. -/
theorem claim_C3_amended :
    (∀ kvs rkvs v, alookup kvs "resultsets" = some (Json.obj rkvs) →
       alookup rkvs "features" = some v → extract_features (Json.obj kvs) = v) ∧
    (∀ kvs rkvs, alookup kvs "resultsets" = some (Json.obj rkvs) →
       alookup rkvs "features" = none → extract_features (Json.obj kvs) = Json.arr []) ∧
    (∀ kvs, alookup kvs "resultsets" = none → extract_features (Json.obj kvs) = Json.arr []) ∧
    (∀ kvs v, alookup kvs "resultsets" = some v → (∀ rkvs, v ≠ Json.obj rkvs) →
       extract_features (Json.obj kvs) = Json.arr []) ∧
    (∀ data, (∀ kvs, data ≠ Json.obj kvs) → extract_features data = Json.arr []) := by
  refine ⟨?_, ?_, ?_, ?_, ?_⟩
  · intro kvs rkvs v h1 h2
    simp [extract_features, pyGetD, h1, h2, Bind.bind, Except.bind]
  · intro kvs rkvs h1 h2
    simp [extract_features, pyGetD, h1, h2, Bind.bind, Except.bind]
  · intro kvs h1
    simp [extract_features, pyGetD, h1, Bind.bind, Except.bind, alookup]
  · intro kvs v h1 hne
    cases v with
    | obj rkvs => exact absurd rfl (hne rkvs)
    | null => simp [extract_features, pyGetD, h1, Bind.bind, Except.bind]
    | bool b => simp [extract_features, pyGetD, h1, Bind.bind, Except.bind]
    | num n => simp [extract_features, pyGetD, h1, Bind.bind, Except.bind]
    | float r => simp [extract_features, pyGetD, h1, Bind.bind, Except.bind]
    | str s => simp [extract_features, pyGetD, h1, Bind.bind, Except.bind]
    | arr xs => simp [extract_features, pyGetD, h1, Bind.bind, Except.bind]
  · intro data hne
    cases data with
    | obj kvs => exact absurd rfl (hne kvs)
    | null => simp [extract_features, pyGetD, Bind.bind, Except.bind]
    | bool b => simp [extract_features, pyGetD, Bind.bind, Except.bind]
    | num n => simp [extract_features, pyGetD, Bind.bind, Except.bind]
    | float r => simp [extract_features, pyGetD, Bind.bind, Except.bind]
    | str s => simp [extract_features, pyGetD, Bind.bind, Except.bind]
    | arr xs => simp [extract_features, pyGetD, Bind.bind, Except.bind]

/-- C3 (witness): the amended theorem at the specification's stub payload,
where `resultsets.features` does hold a list. -/
theorem claim_C3_witness :
    extract_features stubPayload =
      Json.arr [Json.obj [("properties",
        Json.obj [("name", Json.str "Station A"), ("lat", Json.float "33.5")])]] :=
  claim_C3_amended.1 _ _ _ rfl rfl

/-! ## Claim C4 — `search_dataset` result-list normalization -/

/-- C4 (counterexample): the claim says a mapping with a `result` key
yields items = that key's value and totalCount = the explicit
`totalCount` field; but `data.get("totalCount", len(results))` evaluates
`len(results)` eagerly, so `{"result": 42, "totalCount": 5}` raises
`TypeError` instead of yielding `(42, 5)`. -/
theorem claim_C4_counterexample :
    normalize_result_list (Json.obj [("result", Json.num 42), ("totalCount", Json.num 5)]) =
      .error "object of type \x27int\x27 has no len()" ∧
    normalize_result_list (Json.obj [("result", Json.num 42), ("totalCount", Json.num 5)]) ≠
      .ok (Json.num 42, Json.num 5) := by
  decide

/-- C4 (amended): normalization of the upstream payload in
`search_dataset` (lines 182-192): a list passes through with its length
as `totalCount`; a mapping takes its `result` key as the items (or wraps
itself as a single-item list when it has no `result` key and no `apiname`
marker key) **provided the items value is sized** — `len(results)` is
evaluated eagerly as the `.get` default, raising `TypeError` on an
unsized value even when `totalCount` is explicit; when `len` succeeds,
`totalCount` is the explicit field when present, else the item count.
Includes the specification's two concrete examples. -/
theorem claim_C4_amended :
    (∀ l, normalize_result_list (Json.arr l) = .ok (Json.arr l, Json.num l.length)) ∧
    (∀ kvs v tc n, alookup kvs "result" = some v → pyLen v = .ok n →
       alookup kvs "totalCount" = some tc →
       normalize_result_list (Json.obj kvs) = .ok (v, tc)) ∧
    (∀ kvs v e, alookup kvs "result" = some v → pyLen v = .error e →
       normalize_result_list (Json.obj kvs) = .error e) ∧
    (∀ kvs l, alookup kvs "result" = some (Json.arr l) → alookup kvs "totalCount" = none →
       normalize_result_list (Json.obj kvs) = .ok (Json.arr l, Json.num l.length)) ∧
    (∀ kvs, alookup kvs "result" = none → alookup kvs "apiname" = none →
       alookup kvs "totalCount" = none →
       normalize_result_list (Json.obj kvs) = .ok (Json.arr [Json.obj kvs], Json.num 1)) ∧
    normalize_result_list
        (Json.obj [("result", Json.arr [Json.obj [("a", Json.num 1)]]),
          ("totalCount", Json.num 5)]) =
      .ok (Json.arr [Json.obj [("a", Json.num 1)]], Json.num 5) ∧
    normalize_result_list (Json.arr [Json.num 1, Json.num 2, Json.num 3]) =
      .ok (Json.arr [Json.num 1, Json.num 2, Json.num 3], Json.num 3) := by
  refine ⟨?_, ?_, ?_, ?_, ?_, by decide, by decide⟩
  · intro l
    simp [normalize_result_list]
  · intro kvs v tc n h1 h2 h3
    simp [normalize_result_list, h1, h2, h3]
  · intro kvs v e h1 h2
    simp [normalize_result_list, h1, h2]
  · intro kvs l h1 h2
    simp [normalize_result_list, h1, h2, pyLen]
  · intro kvs h1 h2 h3
    simp [normalize_result_list, h1, h2, h3, pyLen]

/-- C4 (witness): the sized-items clause instantiated at the
specification's example payload. -/
theorem claim_C4_witness :
    normalize_result_list
        (Json.obj [("result", Json.arr [Json.obj [("a", Json.num 1)]]),
          ("totalCount", Json.num 5)]) =
      .ok (Json.arr [Json.obj [("a", Json.num 1)]], Json.num 5) :=
  claim_C4_amended.2.1 _ _ _ 1 rfl rfl rfl

/-! ## Claim C2 — dispatcher envelope discipline -/

theorem wrapText_ok {e : Except String String} {r : List TextContent}
    (h : wrapText e = .ok r) : ∃ t, r = [TextContent.mk t false] := by
  cases e with
  | ok t =>
    refine ⟨t, ?_⟩
    simpa [wrapText, Except.map] using h.symm
  | error m => simp [wrapText, Except.map] at h

theorem dispatch_ok_singleton (name : String) (args : List (String × Json))
    (up : Upstream) (r : List TextContent) (h : dispatch name args up = .ok r) :
    ∃ t, r = [t] := by
  unfold dispatch at h
  repeat' split at h
  all_goals first
    | simp at h
    | (obtain ⟨t, ht⟩ := wrapText_ok h; exact ⟨TextContent.mk t false, ht⟩)

/-- C2: for every tool name and argument object, `call_tool` returns
exactly one content block; every branch exception `e` becomes the single
error block `"Error: " + e` with the error flag set; an unknown tool name
yields the error block `"Error: Unknown tool: " + name`, which contains
the name as a substring — and the dispatcher itself is a total function
(it never raises). -/
theorem claim_C2 (name : String) (args : List (String × Json)) (up : Upstream) :
    (∃ t, call_tool name args up = [t]) ∧
    (∀ e, dispatch name args up = .error e →
       call_tool name args up = [TextContent.mk ("Error: " ++ e) true]) ∧
    (name ∉ toolNames →
       call_tool name args up = [TextContent.mk ("Error: Unknown tool: " ++ name) true] ∧
       strHasSub name ("Error: Unknown tool: " ++ name) = true) := by
  refine ⟨?_, ?_, ?_⟩
  · cases hd : dispatch name args up with
    | ok r =>
      obtain ⟨t, ht⟩ := dispatch_ok_singleton name args up r hd
      exact ⟨t, by simp [call_tool, hd, ht]⟩
    | error e => exact ⟨TextContent.mk ("Error: " ++ e) true, by simp [call_tool, hd]⟩
  · intro e hd
    simp [call_tool, hd]
  · intro hn
    simp only [toolNames, List.mem_cons, List.mem_singleton, not_or] at hn
    obtain ⟨h1, h2, h3, h4, h5, h6, -⟩ := hn
    have hd : dispatch name args up = .error ("Unknown tool: " ++ name) := by
      simp [dispatch, h1, h2, h3, h4, h5, h6]
    have hlit : ("Error: " ++ "Unknown tool: " : String) = "Error: Unknown tool: " := by
      decide
    refine ⟨by simp only [call_tool, hd]; rw [← String.append_assoc, hlit], ?_⟩
    exact strHasSub_append "Error: Unknown tool: " name

/-- C2 (witness): the dispatcher at a concrete unknown tool name and a
concrete raising upstream. -/
theorem claim_C2_witness :
    call_tool "bogus" [] upErr = [TextContent.mk ("Error: Unknown tool: " ++ "bogus") true] ∧
    strHasSub "bogus" ("Error: Unknown tool: " ++ "bogus") = true :=
  (claim_C2 "bogus" [] upErr).2.2 (by decide)

/-! ## Claims C9 / C10 — `get_municipality_code` -/

theorem filterEM_wf (q : String) : ∀ orgs : List Json,
    (∀ o ∈ orgs, ∃ kvs s, o = Json.obj kvs ∧ alookup kvs "organ_name" = some (Json.str s)) →
    filterEM (orgPred (Json.str q)) orgs = .ok (orgs.filter (orgMatches q)) := by
  intro orgs
  induction orgs with
  | nil => intro _; rfl
  | cons o os ih =>
    intro h
    obtain ⟨kvs, s, rfl, hlk⟩ := h o (List.mem_cons_self o os)
    have hrest := ih (fun o' ho' => h o' (List.mem_cons_of_mem _ ho'))
    have hpo : orgPred (Json.str q) (Json.obj kvs) = .ok (strHasSub q s) := by
      simp [orgPred, pyGet, pyGetD, hlk, pyIn, Bind.bind, Except.bind]
    simp only [filterEM]
    rw [hpo]
    simp only [hrest, Bind.bind, Except.bind, pure, Except.pure, List.filter,
      orgMatches, hlk]
    cases hq : strHasSub q s <;> simp

/-- C9: with a string query `q` and an upstream organization list whose
entries all carry a string `organ_name`, `get_municipality_code` returns
exactly the entries whose `organ_name` contains `q` as a case-sensitive
substring, in their original order, serialized as pretty-printed JSON. -/
theorem claim_C9 (q : String) (args : List (String × Json)) (up : Upstream)
    (orgs : List Json)
    (hq : alookup args "q" = some (Json.str q))
    (hup : up (BASE_URL ++ "/organization") [] = .ok (Json.arr orgs))
    (horgs : ∀ o ∈ orgs, ∃ kvs s, o = Json.obj kvs ∧
      alookup kvs "organ_name" = some (Json.str s)) :
    call_tool "get_municipality_code" args up =
      [TextContent.mk (json_dumps (Json.arr (orgs.filter (orgMatches q)))) false] := by
  have hm : municipality_text args up = .ok (json_dumps (Json.arr (orgs.filter (orgMatches q)))) := by
    simp only [municipality_text, hq, Option.getD, Bind.bind, Except.bind, hup,
      pyIterate, filterEM_wf q orgs horgs, pure, Except.pure]
  simp [call_tool, dispatch, wrapText, hm, Except.map]

/-- C9 (witness): the specification's stub — only `福岡市` matches. -/
theorem claim_C9_witness :
    call_tool "get_municipality_code" [("q", Json.str "福岡市")] upOrgs =
      [TextContent.mk (json_dumps (Json.arr [wOrg1])) false] := by
  have h := claim_C9 "福岡市" [("q", Json.str "福岡市")] upOrgs [wOrg1, wOrg2]
    rfl rfl (by
      intro o ho
      simp only [List.mem_cons, List.not_mem_nil, or_false] at ho
      rcases ho with rfl | rfl
      · exact ⟨[("organ_name", Json.str "福岡市")], "福岡市", rfl, rfl⟩
      · exact ⟨[("organ_name", Json.str "北九州市")], "北九州市", rfl, rfl⟩)
  exact h.trans (by decide)

theorem filterEM_bad (q : String) (bkvs : List (String × Json)) (rest : List Json)
    (hbad : alookup bkvs "organ_name" = none) : ∀ pre : List Json,
    (∀ o ∈ pre, ∃ kvs s, o = Json.obj kvs ∧ alookup kvs "organ_name" = some (Json.str s)) →
    filterEM (orgPred (Json.str q)) (pre ++ Json.obj bkvs :: rest) =
      .error "argument of type \x27NoneType\x27 is not iterable" := by
  intro pre
  induction pre with
  | nil =>
    intro _
    simp [filterEM, orgPred, pyGet, pyGetD, hbad, Option.getD, pyIn, Bind.bind,
      Except.bind]
  | cons o os ih =>
    intro h
    obtain ⟨kvs, s, rfl, hlk⟩ := h o (List.mem_cons_self o os)
    have hrest := ih (fun o' ho' => h o' (List.mem_cons_of_mem _ ho'))
    have hpo : orgPred (Json.str q) (Json.obj kvs) = .ok (strHasSub q s) := by
      simp [orgPred, pyGet, pyGetD, hlk, pyIn, Bind.bind, Except.bind]
    rw [List.cons_append]
    simp only [filterEM]
    rw [hpo]
    simp only [hrest, Bind.bind, Except.bind]

/-- C10 (implicit): when the upstream organization list contains an entry
without an `organ_name` key (after any number of well-formed entries), the
substring test `q in o.get("organ_name")` raises `TypeError` on the
`None` default, and the whole `get_municipality_code` call collapses to a
single error envelope — no partial filtered list is returned. -/
theorem claim_C10 (q : String) (args : List (String × Json)) (up : Upstream)
    (pre : List Json) (bkvs : List (String × Json)) (rest : List Json)
    (hq : alookup args "q" = some (Json.str q))
    (hup : up (BASE_URL ++ "/organization") [] =
      .ok (Json.arr (pre ++ Json.obj bkvs :: rest)))
    (hpre : ∀ o ∈ pre, ∃ kvs s, o = Json.obj kvs ∧
      alookup kvs "organ_name" = some (Json.str s))
    (hbad : alookup bkvs "organ_name" = none) :
    call_tool "get_municipality_code" args up =
      [TextContent.mk "Error: argument of type \x27NoneType\x27 is not iterable" true] := by
  have hm : municipality_text args up =
      .error "argument of type \x27NoneType\x27 is not iterable" := by
    simp only [municipality_text, hq, Option.getD, Bind.bind, Except.bind, hup,
      pyIterate, filterEM_bad q bkvs rest hbad pre hpre]
  simp [call_tool, dispatch, wrapText, hm, Except.map]

/-- C10 (witness): a concrete upstream list whose second entry lacks
`organ_name`. -/
theorem claim_C10_witness :
    call_tool "get_municipality_code" [("q", Json.str "福岡市")] upBadOrgs =
      [TextContent.mk "Error: argument of type \x27NoneType\x27 is not iterable" true] :=
  claim_C10 "福岡市" [("q", Json.str "福岡市")] upBadOrgs
    [wOrg1] [("name", Json.str "x")] [] rfl rfl
    (by
      intro o ho
      simp only [List.mem_singleton] at ho
      subst ho
      exact ⟨[("organ_name", Json.str "福岡市")], "福岡市", rfl, rfl⟩)
    rfl

/-! ## Claim C5 — `search_dataset` field projection -/

theorem any_key_eq_isSome (it : List (String × Json)) (f : String) :
    (it.any (fun kv => kv.1 = f)) = (alookup it f).isSome := by
  induction it with
  | nil => rfl
  | cons kv rest ih =>
    by_cases h : kv.1 = f
    · simp [alookup, h]
    · simp [alookup, h, ih]

theorem projFold_pure (it : List (String × Json)) :
    ∀ (fs : List String) (acc : List (String × Json)),
    projFold (Json.obj it) acc (fs.map Json.str) = .ok (projPureAux it acc fs) := by
  intro fs
  induction fs with
  | nil => intro acc; rfl
  | cons f fs ih =>
    intro acc
    have hstep : projStep (Json.obj it) acc (Json.str f) =
        .ok (match alookup it f with
             | some v => dictInsert acc f v
             | none => acc) := by
      cases h : alookup it f with
      | some v =>
        simp [projStep, pyIn, any_key_eq_isSome, h, Bind.bind, Except.bind, pure,
          Except.pure]
      | none =>
        simp [projStep, pyIn, any_key_eq_isSome, h, Bind.bind, Except.bind, pure,
          Except.pure]
    simp only [List.map_cons, projFold, hstep, Bind.bind, Except.bind, ih, projPureAux]

theorem project_one_obj (it : List (String × Json)) (fields : List String) :
    project_one (Json.obj it) (Json.arr (fields.map Json.str)) =
      .ok (if (projPure it fields).isEmpty then Json.obj it
           else Json.obj (projPure it fields)) := by
  simp only [project_one, pyIterate, Bind.bind, Except.bind, projFold_pure, projPure,
    pure, Except.pure]

theorem project_fields_obj (items : List (List (String × Json))) (fields : List String) :
    project_fields (items.map Json.obj) (Json.arr (fields.map Json.str)) =
      .ok (items.map fun it =>
        if (projPure it fields).isEmpty then Json.obj it
        else Json.obj (projPure it fields)) := by
  induction items with
  | nil => rfl
  | cons it rest ih =>
    simp only [project_fields] at ih ⊢
    simp only [List.map_cons, List.mapM_cons, project_one_obj, ih, Bind.bind,
      Except.bind, pure, Except.pure]

theorem dictInsert_mem_self (acc : List (String × Json)) (k : String) (v : Json) :
    (k, v) ∈ dictInsert acc k v := by
  induction acc with
  | nil => simp [dictInsert]
  | cons kv rest ih =>
    by_cases h : kv.1 = k
    · cases kv
      simp_all [dictInsert]
    · cases kv
      simp_all [dictInsert]

theorem dictInsert_sub (acc : List (String × Json)) (k : String) (v : Json) :
    ∀ x ∈ dictInsert acc k v, x ∈ acc ∨ x = (k, v) := by
  induction acc with
  | nil => simp [dictInsert]
  | cons kv rest ih =>
    intro x hx
    cases kv with
    | mk k' v' =>
      by_cases h : k' = k
      · simp only [dictInsert, if_pos h] at hx
        rcases List.mem_cons.mp hx with h1 | h1
        · exact Or.inr h1
        · exact Or.inl (List.mem_cons_of_mem _ h1)
      · simp only [dictInsert, if_neg h] at hx
        rcases List.mem_cons.mp hx with h1 | h1
        · exact Or.inl (h1 ▸ List.mem_cons_self _ _)
        · rcases ih x h1 with h2 | h2
          · exact Or.inl (List.mem_cons_of_mem _ h2)
          · exact Or.inr h2

theorem dictInsert_pres (acc : List (String × Json)) (k : String) (v : Json)
    (x : String × Json) (hx : x ∈ acc) (hne : x.1 ≠ k) : x ∈ dictInsert acc k v := by
  induction acc with
  | nil => cases hx
  | cons kv rest ih =>
    cases kv with
    | mk k' v' =>
      by_cases h : k' = k
      · simp only [dictInsert, if_pos h]
        rcases List.mem_cons.mp hx with h1 | h1
        · exact absurd (congrArg Prod.fst h1) (by simpa [h] using hne)
        · exact List.mem_cons_of_mem _ h1
      · simp only [dictInsert, if_neg h]
        rcases List.mem_cons.mp hx with h1 | h1
        · exact h1 ▸ List.mem_cons_self _ _
        · exact List.mem_cons_of_mem _ (ih h1)

theorem projPureAux_sound (it : List (String × Json)) (k : String) (v : Json) :
    ∀ (fields : List String) (acc : List (String × Json)),
    (k, v) ∈ projPureAux it acc fields →
    (k, v) ∈ acc ∨ (k ∈ fields ∧ alookup it k = some v) := by
  intro fields
  induction fields with
  | nil => intro acc h; exact Or.inl h
  | cons f fs ih =>
    intro acc h
    simp only [projPureAux] at h
    cases halk : alookup it f with
    | none =>
      rw [halk] at h
      rcases ih _ h with h1 | ⟨h1, h2⟩
      · exact Or.inl h1
      · exact Or.inr ⟨List.mem_cons_of_mem _ h1, h2⟩
    | some w =>
      rw [halk] at h
      rcases ih _ h with h1 | ⟨h1, h2⟩
      · rcases dictInsert_sub acc f w _ h1 with h2 | h2
        · exact Or.inl h2
        · obtain ⟨rfl, rfl⟩ := Prod.mk.inj h2
          exact Or.inr ⟨List.mem_cons_self _ _, halk⟩
      · exact Or.inr ⟨List.mem_cons_of_mem _ h1, h2⟩

theorem projPureAux_complete (it : List (String × Json)) (k : String) (v : Json)
    (hv : alookup it k = some v) :
    ∀ (fields : List String) (acc : List (String × Json)),
    (∀ kv ∈ acc, alookup it kv.1 = some kv.2) →
    ((k, v) ∈ acc ∨ k ∈ fields) → (k, v) ∈ projPureAux it acc fields := by
  intro fields
  induction fields with
  | nil =>
    intro acc _ h
    rcases h with h | h
    · exact h
    · cases h
  | cons f fs ih =>
    intro acc hinv h
    simp only [projPureAux]
    cases halk : alookup it f with
    | none =>
      refine ih acc hinv ?_
      rcases h with h | h
      · exact Or.inl h
      · rcases List.mem_cons.mp h with rfl | h1
        · rw [hv] at halk; cases halk
        · exact Or.inr h1
    | some w =>
      refine ih (dictInsert acc f w) ?_ ?_
      · intro kv hkv
        rcases dictInsert_sub acc f w kv hkv with h1 | h1
        · exact hinv kv h1
        · rw [h1]; exact halk
      · rcases h with h | h
        · by_cases hk : k = f
          · subst hk
            have : w = v := by rw [hv] at halk; exact (Option.some.inj halk).symm
            subst this
            exact Or.inl (dictInsert_mem_self acc k w)
          · exact Or.inl (dictInsert_pres acc f w (k, v) h hk)
        · rcases List.mem_cons.mp h with rfl | h1
          · have : w = v := by rw [hv] at halk; exact (Option.some.inj halk).symm
            subst this
            exact Or.inl (dictInsert_mem_self acc k w)
          · exact Or.inr h1

/-- C5: over mapping items and string field names, the `search_dataset`
projection never raises and maps each item to the dict-comprehension
projection — passing the original item through unfiltered when the
projection is empty — so the output has the same length and order as the
input; the projection contains exactly the requested field names that
exist on the item, with the item's values. -/
theorem claim_C5 (items : List (List (String × Json))) (fields : List String) :
    project_fields (items.map Json.obj) (Json.arr (fields.map Json.str)) =
      .ok (items.map fun it =>
        if (projPure it fields).isEmpty then Json.obj it
        else Json.obj (projPure it fields)) ∧
    (items.map fun it =>
        if (projPure it fields).isEmpty then Json.obj it
        else Json.obj (projPure it fields)).length = items.length ∧
    (∀ it k v, (k, v) ∈ projPure it fields → k ∈ fields ∧ alookup it k = some v) ∧
    (∀ it k v, k ∈ fields → alookup it k = some v → (k, v) ∈ projPure it fields) := by
  refine ⟨project_fields_obj items fields, List.length_map _ _, ?_, ?_⟩
  · intro it k v h
    rcases projPureAux_sound it k v fields [] h with h1 | h1
    · cases h1
    · exact h1
  · intro it k v hk hv
    exact projPureAux_complete it k v hv fields [] (by intro kv hkv; cases hkv) (Or.inr hk)

/-- C5 (witness): the specification's two examples — a matching field
projects, and a non-matching field list passes the item through. -/
theorem claim_C5_witness :
    project_fields [Json.obj [("a", Json.num 1), ("b", Json.num 2)]]
        (Json.arr [Json.str "a"]) = .ok [Json.obj [("a", Json.num 1)]] ∧
    project_fields [Json.obj [("a", Json.num 1)]] (Json.arr [Json.str "z"]) =
      .ok [Json.obj [("a", Json.num 1)]] ∧
    ("a", Json.num 1) ∈ projPure [("a", Json.num 1), ("b", Json.num 2)] ["a"] :=
  ⟨((claim_C5 [[("a", Json.num 1), ("b", Json.num 2)]] ["a"]).1).trans (by decide),
   ((claim_C5 [[("a", Json.num 1)]] ["z"]).1).trans (by decide),
   (claim_C5 [[("a", Json.num 1), ("b", Json.num 2)]] ["a"]).2.2.2
     [("a", Json.num 1), ("b", Json.num 2)] "a" (Json.num 1) (by decide) rfl⟩

/-! ## Claim C7 — `search_dataset` defaults, hint and totalCount -/

theorem alookup_filter_ne (kvs : List (String × Json)) (k k0 : String) (h : k ≠ k0) :
    alookup (kvs.filter (fun kv => kv.1 ≠ k0)) k = alookup kvs k := by
  induction kvs with
  | nil => rfl
  | cons kv rest ih =>
    obtain ⟨k1, v1⟩ := kv
    simp only [ne_eq, decide_not] at ih ⊢
    by_cases h1 : k1 = k0
    · have h2 : k1 ≠ k := fun e => h (e ▸ h1)
      have h3 : ¬(k0 = k) := fun e => h e.symm
      simp [alookup, List.filter, h1, h2, h3, ih]
    · by_cases h2 : k1 = k
      · simp [alookup, List.filter, h1, h2, h]
      · simp [alookup, List.filter, h1, h2, h, ih]

theorem mem_search_params (args2 : List (String × Json))
    (h : alookup args2 "maxResults" = none) :
    ("maxResults", Json.num 10) ∈ search_params args2 := by
  unfold search_params
  rw [if_pos (by simp [h])]
  rw [List.mem_filter]
  refine ⟨List.mem_append_right _ (List.mem_singleton.mpr rfl), by decide⟩

theorem search_request_fields_flag (args : List (String × Json)) (u : String)
    (p : List (String × Json)) (s : Json) (fp : Bool)
    (h : search_request args = .ok (u, p, s, fp)) :
    fp = (alookup args "fields").isSome := by
  unfold search_request at h
  cases hpop : popKey args "apiname" with
  | none => rw [hpop] at h; cases h
  | some pr =>
    rw [hpop] at h
    unfold popKey at hpop
    cases halk : alookup args "apiname" with
    | none => rw [halk] at hpop; cases hpop
    | some a =>
      rw [halk] at hpop
      obtain rfl := Option.some.inj hpop
      have := congrArg (fun x => x.2.2.2) (Except.ok.inj h)
      simp only at this
      rw [← this, alookup_filter_ne args "fields" "apiname" (by decide)]

/-- C7: in `search_dataset`, an absent `maxResults` is set to 10 in the
upstream query params; an absent `fields` makes the projection use the
fixed default field list and appends the config-lookup hint to the
response text; a supplied `fields` suppresses the hint; and every
successful response text is the pretty-printed JSON of an object whose
keys are `totalCount` and `result`. -/
theorem claim_C7 (args : List (String × Json)) (up : Upstream) :
    (∀ u p s fp, search_request args = .ok (u, p, s, fp) →
       fp = (alookup args "fields").isSome ∧
       (alookup args "maxResults" = none → ("maxResults", Json.num 10) ∈ p) ∧
       (alookup args "fields" = none → s = defaultFieldsJson)) ∧
    (∀ t, search_dataset_text args up = .ok t →
       ∃ tc res, t = json_dumps (Json.obj [("totalCount", tc), ("result", Json.arr res)]) ++
         (if (alookup args "fields").isSome then "" else hintText)) := by
  constructor
  · intro u p s fp h
    refine ⟨search_request_fields_flag args u p s fp h, ?_, ?_⟩
    · intro hmr
      unfold search_request at h
      cases hpop : popKey args "apiname" with
      | none => rw [hpop] at h; cases h
      | some pr =>
        rw [hpop] at h
        unfold popKey at hpop
        cases halk : alookup args "apiname" with
        | none => rw [halk] at hpop; cases hpop
        | some a =>
          rw [halk] at hpop
          obtain rfl := Option.some.inj hpop
          have hp := congrArg (fun x => x.2.1) (Except.ok.inj h)
          simp only at hp
          have hmr1 : alookup (args.filter (fun kv => kv.1 ≠ "apiname")) "maxResults" = none := by
            rw [alookup_filter_ne args "maxResults" "apiname" (by decide)]; exact hmr
          rw [← hp]
          cases hf : popKey (args.filter (fun kv => kv.1 ≠ "apiname")) "fields" with
          | none =>
            simp only [hf]
            exact mem_search_params _ hmr1
          | some pf =>
            simp only [hf]
            unfold popKey at hf
            cases hfl : alookup (args.filter (fun kv => kv.1 ≠ "apiname")) "fields" with
            | none => rw [hfl] at hf; cases hf
            | some fv =>
              rw [hfl] at hf
              obtain rfl := Option.some.inj hf
              refine mem_search_params _ ?_
              rw [alookup_filter_ne _ "maxResults" "fields" (by decide)]
              exact hmr1
    · intro hfl
      unfold search_request at h
      cases hpop : popKey args "apiname" with
      | none => rw [hpop] at h; cases h
      | some pr =>
        rw [hpop] at h
        unfold popKey at hpop
        cases halk : alookup args "apiname" with
        | none => rw [halk] at hpop; cases hpop
        | some a =>
          rw [halk] at hpop
          obtain rfl := Option.some.inj hpop
          have hfl1 : alookup (args.filter (fun kv => kv.1 ≠ "apiname")) "fields" = none := by
            rw [alookup_filter_ne args "fields" "apiname" (by decide)]; exact hfl
          have hs := congrArg (fun x => x.2.2.1) (Except.ok.inj h)
          simp only at hs
          rw [← hs]
          unfold popKey
          rw [hfl1]
  · intro t h
    unfold search_dataset_text at h
    cases hreq : search_request args with
    | error e =>
      simp only [hreq, Bind.bind, Except.bind] at h
      exact Except.noConfusion h
    | ok req =>
      obtain ⟨u, p, s, fp⟩ := req
      simp only [hreq, Bind.bind, Except.bind] at h
      cases hup : up u p with
      | error e =>
        simp only [hup] at h
        exact Except.noConfusion h
      | ok data =>
        simp only [hup] at h
        cases hnr : normalize_result_list data with
        | error e =>
          simp only [hnr] at h
          exact Except.noConfusion h
        | ok nr =>
          simp only [hnr] at h
          cases hit : pyIterate nr.1 with
          | error e =>
            simp only [hit] at h
            exact Except.noConfusion h
          | ok items =>
            simp only [hit] at h
            cases hproj : project_fields items s with
            | error e =>
              simp only [hproj] at h
              exact Except.noConfusion h
            | ok filtered =>
              simp only [hproj, pure, Except.pure] at h
              obtain rfl := (Except.ok.inj h).symm
              refine ⟨nr.2, filtered, ?_⟩
              rw [search_request_fields_flag args u p s fp hreq]

/-- C7 (witness): concrete arguments `{"apiname": "aed"}` (no `fields`, no
`maxResults`) against the `upSearch` stub: the query gets
`maxResults = 10`, and the successful response text is the totalCount /
result object with the hint appended. -/
theorem claim_C7_witness :
    ("maxResults", Json.num 10) ∈ [("maxResults", Json.num 10)] ∧
    (∃ tc res,
      json_dumps (Json.obj [("totalCount", Json.num 1),
          ("result", Json.arr [Json.obj [("name", Json.str "A")]])]) ++ hintText =
        json_dumps (Json.obj [("totalCount", tc), ("result", Json.arr res)]) ++
          (if (alookup [("apiname", Json.str "aed")] "fields").isSome then ""
           else hintText)) :=
  ⟨((claim_C7 [("apiname", Json.str "aed")] upSearch).1 "https://wapi.bodik.jp/aed"
      [("maxResults", Json.num 10)] defaultFieldsJson false (by decide)).2.1 rfl,
   (claim_C7 [("apiname", Json.str "aed")] upSearch).2 _ (by decide)⟩

/-! ## Claims C1 / C8 — CSV header computation -/

theorem addNewKeys_ext (ks : List String) : ∀ acc, ∃ t, addNewKeys acc ks = acc ++ t := by
  induction ks with
  | nil => exact fun acc => ⟨[], (List.append_nil acc).symm⟩
  | cons k ks ih =>
    intro acc
    by_cases hk : k ∈ acc
    · obtain ⟨t, ht⟩ := ih acc
      refine ⟨t, ?_⟩
      simp only [addNewKeys, List.foldl_cons, addNewKey, if_pos hk] at ht ⊢
      exact ht
    · obtain ⟨t, ht⟩ := ih (acc ++ [k])
      refine ⟨[k] ++ t, ?_⟩
      simp only [addNewKeys, List.foldl_cons, addNewKey, if_neg hk] at ht ⊢
      rw [ht, List.append_assoc]

theorem unionFold_ext (rs : List (List (String × Json))) :
    ∀ acc, ∃ t, rs.foldl (fun a r => addNewKeys a (recordKeys r)) acc = acc ++ t := by
  induction rs with
  | nil => exact fun acc => ⟨[], (List.append_nil acc).symm⟩
  | cons r rs ih =>
    intro acc
    obtain ⟨t1, ht1⟩ := addNewKeys_ext (recordKeys r) acc
    obtain ⟨t2, ht2⟩ := ih (addNewKeys acc (recordKeys r))
    refine ⟨t1 ++ t2, ?_⟩
    rw [List.foldl_cons, ht2, ht1, List.append_assoc]

theorem csvHeadersInner_spec (maxCols : Nat) :
    ∀ (ks seen hdrs : List String),
    (∀ x, x ∈ seen ↔ x ∈ hdrs) → hdrs.length < maxCols →
    (csvHeadersInner maxCols ks seen hdrs).2 = (addNewKeys hdrs ks).take maxCols ∧
    (∀ x, x ∈ (csvHeadersInner maxCols ks seen hdrs).1 ↔
      x ∈ (csvHeadersInner maxCols ks seen hdrs).2) := by
  intro ks
  induction ks with
  | nil =>
    intro seen hdrs hinv hlen
    refine ⟨?_, hinv⟩
    simp only [csvHeadersInner, addNewKeys, List.foldl_nil]
    exact (List.take_of_length_le (Nat.le_of_lt hlen)).symm
  | cons k ks ih =>
    intro seen hdrs hinv hlen
    by_cases hk : k ∈ seen
    · have hk' : k ∈ hdrs := (hinv k).mp hk
      have hstep : csvHeadersInner maxCols (k :: ks) seen hdrs =
          csvHeadersInner maxCols ks seen hdrs := by
        simp only [csvHeadersInner, if_pos hk]
        rw [if_neg (by omega)]
      have hkeys : addNewKeys hdrs (k :: ks) = addNewKeys hdrs ks := by
        simp only [addNewKeys, List.foldl_cons, addNewKey, if_pos hk']
      rw [hstep, hkeys]
      exact ih seen hdrs hinv hlen
    · have hk' : k ∉ hdrs := fun hx => hk ((hinv k).mpr hx)
      have hinv' : ∀ x, x ∈ k :: seen ↔ x ∈ hdrs ++ [k] := by
        intro x
        simp only [List.mem_cons, List.mem_append, List.mem_singleton, hinv x]
        tauto
      have hkeys : addNewKeys hdrs (k :: ks) = addNewKeys (hdrs ++ [k]) ks := by
        simp only [addNewKeys, List.foldl_cons, addNewKey, if_neg hk']
      have hlen1 : (hdrs ++ [k]).length = hdrs.length + 1 := by
        simp
      by_cases hstop : maxCols ≤ (hdrs ++ [k]).length
      · have heq : (hdrs ++ [k]).length = maxCols := by omega
        have hstep : csvHeadersInner maxCols (k :: ks) seen hdrs =
            (k :: seen, hdrs ++ [k]) := by
          simp only [csvHeadersInner, if_neg hk]
          rw [if_pos hstop]
        rw [hstep, hkeys]
        refine ⟨?_, hinv'⟩
        obtain ⟨t, ht⟩ := addNewKeys_ext ks (hdrs ++ [k])
        rw [ht, ← heq, List.take_left]
      · have hlt : (hdrs ++ [k]).length < maxCols := by omega
        have hstep : csvHeadersInner maxCols (k :: ks) seen hdrs =
            csvHeadersInner maxCols ks (k :: seen) (hdrs ++ [k]) := by
          simp only [csvHeadersInner, if_neg hk]
          rw [if_neg hstop]
        rw [hstep, hkeys]
        exact ih (k :: seen) (hdrs ++ [k]) hinv' hlt

theorem csvHeadersOuter_spec (maxCols : Nat) :
    ∀ (rs : List (List (String × Json))) (seen hdrs : List String),
    (∀ x, x ∈ seen ↔ x ∈ hdrs) → hdrs.length < maxCols →
    csvHeadersOuter maxCols rs seen hdrs =
      (rs.foldl (fun acc r => addNewKeys acc (recordKeys r)) hdrs).take maxCols := by
  intro rs
  induction rs with
  | nil =>
    intro seen hdrs hinv hlen
    simp only [csvHeadersOuter, List.foldl_nil]
    exact (List.take_of_length_le (Nat.le_of_lt hlen)).symm
  | cons r rs ih =>
    intro seen hdrs hinv hlen
    obtain ⟨hp2, hpinv⟩ := csvHeadersInner_spec maxCols (recordKeys r) seen hdrs hinv hlen
    rw [List.foldl_cons]
    by_cases hstop : maxCols ≤ (csvHeadersInner maxCols (recordKeys r) seen hdrs).2.length
    · have hstep : csvHeadersOuter maxCols (r :: rs) seen hdrs =
          (csvHeadersInner maxCols (recordKeys r) seen hdrs).2 := by
        simp only [csvHeadersOuter]
        rw [if_pos hstop]
      rw [hstep, hp2]
      have hYlen : maxCols ≤ (addNewKeys hdrs (recordKeys r)).length := by
        have h1 := List.length_take maxCols (addNewKeys hdrs (recordKeys r))
        rw [hp2] at hstop
        omega
      obtain ⟨t, ht⟩ := unionFold_ext rs (addNewKeys hdrs (recordKeys r))
      rw [ht, List.take_append_of_le_length hYlen]
    · have hlt : (csvHeadersInner maxCols (recordKeys r) seen hdrs).2.length < maxCols := by
        omega
      have hY : (csvHeadersInner maxCols (recordKeys r) seen hdrs).2 =
          addNewKeys hdrs (recordKeys r) := by
        have h1 := List.length_take maxCols (addNewKeys hdrs (recordKeys r))
        rw [hp2] at hlt ⊢
        have h2 : (addNewKeys hdrs (recordKeys r)).length < maxCols := by omega
        exact List.take_of_length_le (Nat.le_of_lt h2)
      have hstep : csvHeadersOuter maxCols (r :: rs) seen hdrs =
          csvHeadersOuter maxCols rs (csvHeadersInner maxCols (recordKeys r) seen hdrs).1
            (csvHeadersInner maxCols (recordKeys r) seen hdrs).2 := by
        simp only [csvHeadersOuter]
        rw [if_neg (by omega)]
      rw [hstep, ih _ _ hpinv hlt, hY]

/-- The operative header computation equals the unbounded first-occurrence
union truncated to the first `maxCols` keys, for any positive bound. -/
theorem csvHeaders_take (maxCols : Nat) (h : 1 ≤ maxCols)
    (records : List (List (String × Json))) :
    csvHeaders maxCols records = (unionKeys records).take maxCols :=
  csvHeadersOuter_spec maxCols records [] [] (by simp) h

set_option maxRecDepth 8192

/-- C1 (counterexample): with 61 records carrying 61 distinct keys, the
header row of `_records_to_csv` (bounded at the default 60 columns) is
not the full first-occurrence union of all keys, so "header row equal to
the union of all keys across all records" fails for this non-empty
record list. -/
theorem claim_C1_counterexample :
    csvHeaders 60 recs61 ≠ unionKeys recs61 ∧ recs61 ≠ [] := by
  decide

/-- C1 (amended): the header row of `_records_to_csv` is the union of all
keys across all records in first-occurrence order **truncated to the
first `maxColumns` keys** (default 60); and the `search_get_csv` pipeline
on the specification's stub payload yields exactly
`"name,lat\r\nStation A,33.5\r\n"`. -/
theorem claim_C1_amended :
    (∀ maxCols records, 1 ≤ maxCols →
      csvHeaders maxCols records = (unionKeys records).take maxCols) ∧
    search_get_csv_text stubPayload = .ok "name,lat\r\nStation A,33.5\r\n" :=
  ⟨fun maxCols records h => csvHeaders_take maxCols h records, by decide⟩

/-- C1 (witness): the truncation equation at the stub record and the
default bound. -/
theorem claim_C1_witness :
    1 ≤ 60 ∧
    csvHeaders 60 [[("name", Json.str "Station A"), ("lat", Json.float "33.5")]] =
      (unionKeys [[("name", Json.str "Station A"), ("lat", Json.float "33.5")]]).take 60 :=
  ⟨by decide, claim_C1_amended.1 60 _ (by decide)⟩

/-- C8 (counterexample): the claim quantifies over **every** column bound
`N`; at `N = 0` the break check only runs after a key has already been
appended, so one record with one key yields one header column — more than
`N`. -/
theorem claim_C8_counterexample :
    (csvHeaders 0 [[("a", Json.num 1)]]).length = 1 ∧
    ¬(csvHeaders 0 [[("a", Json.num 1)]]).length ≤ 0 := by
  decide

/-- C8 (amended): for every positive column bound `N` (in particular the
default 60), the header produced by `_records_to_csv` has at most `N`
columns, however many distinct keys the records carry. -/
theorem claim_C8_amended (maxCols : Nat) (records : List (List (String × Json)))
    (h : 1 ≤ maxCols) : (csvHeaders maxCols records).length ≤ maxCols := by
  rw [csvHeaders_take maxCols h records]
  rw [List.length_take]
  omega

/-- C8 (witness): the bound at `N = 60` over the 61-distinct-key records. -/
theorem claim_C8_witness : 1 ≤ 60 ∧ (csvHeaders 60 recs61).length ≤ 60 :=
  ⟨by decide, claim_C8_amended 60 recs61 (by decide)⟩
